import Mathlib

/-!
Verification of the movement / adversary-decision / collision core of
`src/pacman.py`.

Position representation.  The Python code stores entity positions as pairs of
floats in grid units.  Every position the program can produce is an exact
multiple of 1/48 of a tile: entities start on integer tiles, the four speeds
are `6.0/TILE_SIZE = 12/48`, `5.0/TILE_SIZE = 10/48`, `3.5/TILE_SIZE = 7/48`
and `7.0/TILE_SIZE = 14/48` tiles per frame, and every reset or clamp snaps to
an integer tile.  We embed a coordinate `q` by the integer `48*q` ("sub-tile
units"), reproducing the source arithmetic exactly; each definition's comment
gives the Python it embeds and the unit conversion.
-/

/-- `TILE_SIZE = 24` (pixels per tile). -/
def tileSize : ℤ := 24

/-- `FPS = 60` (ticks per second). -/
def fps : ℤ := 60

/-- One tile in sub-tile units: positions are stored as `48 * q`. -/
def subTile : ℤ := 48

/-- `UP = (0, -1)`. -/
def UP : ℤ × ℤ := (0, -1)

/-- `DOWN = (0, 1)`. -/
def DOWN : ℤ × ℤ := (0, 1)

/-- `LEFT = (-1, 0)`. -/
def LEFT : ℤ × ℤ := (-1, 0)

/-- `RIGHT = (1, 0)`. -/
def RIGHT : ℤ × ℤ := (1, 0)

/-- `STOP = (0, 0)`. -/
def STOP : ℤ × ℤ := (0, 0)

/-- `ALL_DIRS = [UP, DOWN, LEFT, RIGHT]` (the fixed enumeration order used by
every direction scan in the source). -/
def ALL_DIRS : List (ℤ × ℤ) := [UP, DOWN, LEFT, RIGHT]

/-- Python's `round` (banker's rounding, half to even) applied to the grid
coordinate `z / 48`.  With `f = ⌊z/48⌋` and remainder `r = z mod 48 ∈ [0,48)`:
fraction below one half rounds down, above one half rounds up, exactly one
half (`r = 24`) rounds to the even neighbour.  `/` and `%` on `ℤ` are
Euclidean, so `f` is the floor and `r` is non-negative. -/
def pyRound48 (z : ℤ) : ℤ :=
  if 2 * (z % 48) < 48 then z / 48
  else if 48 < 2 * (z % 48) then z / 48 + 1
  else if (z / 48) % 2 = 0 then z / 48 else z / 48 + 1

/-- `int(round(x)), int(round(y))`: the rounded-to-nearest grid tile of a
position (`int` of an integral float is that integer). -/
def roundPos (p : ℤ × ℤ) : ℤ × ℤ := (pyRound48 p.1, pyRound48 p.2)

/-- `abs(pos - round(pos)) < 0.1` on both axes
(`Player._is_centered_on_tile` / `Ghost._at_center`).  In sub-tile units:
`|q - round(q)| < 1/10  ⟺  10 * |z - 48*round(q)| < 48`. -/
def atCenter (p : ℤ × ℤ) : Bool :=
  decide (10 * |p.1 - 48 * pyRound48 p.1| < 48 ∧ 10 * |p.2 - 48 * pyRound48 p.2| < 48)

/-- `manhattan(a, b) = abs(a[0]-b[0]) + abs(a[1]-b[1])`. -/
def manhattan (a b : ℤ × ℤ) : ℤ := |a.1 - b.1| + |a.2 - b.2|

/-- `grid_to_px(pos) = int(x*TILE_SIZE + TILE_SIZE/2), ...`: with `x = z/48`
this is `int(z/2 + 12) = trunc((z + 24)/2)`; `int()` truncates toward zero. -/
def halfTrunc (w : ℤ) : ℤ := if 0 ≤ w then w / 2 else -((-w) / 2)

/-- Pixel center of a position (`grid_to_px`). -/
def gridToPx (p : ℤ × ℤ) : ℤ × ℤ := (halfTrunc (p.1 + 24), halfTrunc (p.2 + 24))

/-- The collision test `math.hypot(dx, dy) < TILE_SIZE * 0.6` between two pixel
points.  Both distances are non-negative, so squaring is exact:
`hypot < 14.4  ⟺  dx² + dy² < 14.4² = 5184/25  ⟺  25*(dx² + dy²) < 5184`. -/
def collideB (a b : ℤ × ℤ) : Bool :=
  decide (25 * ((a.1 - b.1) ^ 2 + (a.2 - b.2) ^ 2) < 5184)

/-- Ghost behaviour states: `GHOST_NORMAL`, `GHOST_VULNERABLE`, `GHOST_EATEN`
(the spec's Threat, Vulnerable, Captured). -/
inductive GhostState
  | normal
  | vulnerable
  | eaten
deriving DecidableEq

/-- Adversary targeting variants: `ChaserGhost` (greedy pursuit) and
`RandomGhost` (uniform choice).  The spec's Pursuer / Wanderer. -/
inductive GhostKind
  | chaser
  | randomGhost
deriving DecidableEq

/-- Grid geometry parsed from a textual layout (class `Maze`).  Coordinates are
integer tile indices; the sets of the source are membership-queried lists. -/
structure Maze where
  width : ℤ
  height : ℤ
  walls : List (ℤ × ℤ)
  pellets : List (ℤ × ℤ)
  powerPellets : List (ℤ × ℤ)
  playerStart : ℤ × ℤ
  ghostStarts : List (ℤ × ℤ)
  housePos : ℤ × ℤ
deriving DecidableEq

/-- One character of `Maze._parse`: `#` wall, `.` pellet, `o` power pellet,
`P` player spawn (assignment, last marker wins), `C`/`R` ghost spawn
(appended in scan order), `H` house, anything else open floor. -/
def parseCell (m : Maze) (x y : ℤ) (ch : Char) : Maze :=
  if ch = '#' then { m with walls := m.walls ++ [(x, y)] }
  else if ch = '.' then { m with pellets := m.pellets ++ [(x, y)] }
  else if ch = 'o' then { m with powerPellets := m.powerPellets ++ [(x, y)] }
  else if ch = 'P' then { m with playerStart := (x, y) }
  else if ch = 'C' then { m with ghostStarts := m.ghostStarts ++ [(x, y)] }
  else if ch = 'R' then { m with ghostStarts := m.ghostStarts ++ [(x, y)] }
  else if ch = 'H' then { m with housePos := (x, y) }
  else m

/-- Scan of one row of the layout (inner loop of `Maze._parse`). -/
def parseRow : Maze → ℤ → ℤ → List Char → Maze
  | m, _, _, [] => m
  | m, x, y, c :: cs => parseRow (parseCell m x y c) (x + 1) y cs

/-- Scan of all rows (outer loop of `Maze._parse`). -/
def parseRows : Maze → ℤ → List (List Char) → Maze
  | m, _, [] => m
  | m, y, row :: rest => parseRows (parseRow m 0 y row) (y + 1) rest

/-- `Maze.__init__`: dimensions from the layout, default `player_start = (1,1)`
and `house_pos = (width//2, height//2)`, then `_parse`.  The constructor has no
validation and no failure path. -/
def mazeOfLayout (layout : List (List Char)) : Maze :=
  let h : ℤ := layout.length
  let w : ℤ := (layout.headD []).length
  parseRows
    { width := w, height := h, walls := [], pellets := [], powerPellets := [],
      playerStart := (1, 1), ghostStarts := [], housePos := (w / 2, h / 2) }
    0 layout

/-- `0 <= gx < width and 0 <= gy < height` (`Maze.in_bounds`). -/
def inBounds (m : Maze) (c : ℤ × ℤ) : Bool :=
  decide (0 ≤ c.1 ∧ c.1 < m.width ∧ 0 ≤ c.2 ∧ c.2 < m.height)

/-- `(gx, gy) not in walls` (`Maze.passable`). -/
def passable (m : Maze) (c : ℤ × ℤ) : Bool :=
  decide (c ∉ m.walls)

/-- The hard-coded layout of `Game._build_maze` (before padding). -/
def rawLayout : List String :=
  [ "#########################",
    "#P...........##.........#",
    "#.###.#####.##.#####.###",
    "#o# #.#   #.##.#   #.#o#",
    "#.###.#####.##.#####.###",
    "#.......................#",
    "#.###.##.########.##.###",
    "#.....##....H.....##....#",
    "#####.######..######.####",
    "    #.R    C  C    R.#   ",
    "#####.######..######.####",
    "#.....##..........##....#",
    "#.###.##.########.##.###",
    "#o.....................o#",
    "#########################" ]

/-- `r.ljust(width)`: pad a row with spaces on the right. -/
def ljust (n : ℕ) (l : List Char) : List Char :=
  l ++ List.replicate (n - l.length) ' '

/-- `Game._build_maze`: pad every row to the maximal row width, then parse. -/
def buildMaze : Maze :=
  let rows := rawLayout.map String.toList
  let w := (rows.map List.length).foldl max 0
  mazeOfLayout (rows.map (ljust w))

/-- Player state (class `Player`).  `pos` is in sub-tile units; `speed` is
`6.0 / TILE_SIZE = 1/4` tile per frame, i.e. `12` sub-tile units.  The cosmetic
fields (`radius`, `alive`, `maze` back-reference) play no role in the logic and
are omitted. -/
structure Player where
  pos : ℤ × ℤ
  dir : ℤ × ℤ
  nextDir : ℤ × ℤ
  speed : ℤ
  lives : ℤ
  score : ℤ
deriving DecidableEq

/-- `Player.__init__(maze, start)`: float position at the start tile, `STOP`
directions, speed `6.0/TILE_SIZE` (= 12 sub-tile units), 3 lives, score 0. -/
def playerInit (start : ℤ × ℤ) : Player :=
  { pos := (48 * start.1, 48 * start.2), dir := STOP, nextDir := STOP,
    speed := 12, lives := 3, score := 0 }

/-- `Player.can_move(direction)`: the tile one step from the rounded position
is in bounds and passable. -/
def canMove (m : Maze) (p : Player) (d : ℤ × ℤ) : Bool :=
  inBounds m ((roundPos p.pos).1 + d.1, (roundPos p.pos).2 + d.2) &&
  passable m ((roundPos p.pos).1 + d.1, (roundPos p.pos).2 + d.2)

/-- `Player._clamp_inside_walls`: when centered and the rounded tile is a wall,
snap the position exactly to that tile center. -/
def clampInsideWalls (m : Maze) (p : Player) : Player :=
  if atCenter p.pos = true ∧ roundPos p.pos ∈ m.walls then
    { p with pos := (48 * (roundPos p.pos).1, 48 * (roundPos p.pos).2) }
  else p

/-- First statement of `Player.update`: adopt `next_dir` when it differs from
`dir`, the player is centered on a tile, and the move is legal. -/
def applyNextDir (m : Maze) (p : Player) : Player :=
  if p.nextDir ≠ p.dir ∧ atCenter p.pos = true ∧ canMove m p p.nextDir = true
  then { p with dir := p.nextDir } else p

/-- Second statement of `Player.update`: when the current direction is blocked
and the player is centered, stop. -/
def stopIfBlocked (m : Maze) (p : Player) : Player :=
  if canMove m p p.dir = false ∧ atCenter p.pos = true
  then { p with dir := STOP } else p

/-- Movement statement of `Player.update`: `pos += dir * speed`. -/
def integrate (p : Player) : Player :=
  { p with pos := (p.pos.1 + p.dir.1 * p.speed, p.pos.2 + p.dir.2 * p.speed) }

/-- `Player.update`: adopt `next_dir` at tile centers when legal, stop at the
center when the current direction is blocked, integrate `dir * speed`, then
apply the defensive clamp. -/
def playerUpdate (m : Maze) (p : Player) : Player :=
  clampInsideWalls m (integrate (stopIfBlocked m (applyNextDir m p)))

/-- `Player.eat_pellets`: at the rounded tile remove a pellet (+10) and a power
pellet (+50) if present; returns the updated maze and player and the two
consumption counts. -/
def eatPellets (m : Maze) (p : Player) : Maze × Player × ℕ × ℕ :=
  let c := roundPos p.pos
  let m1 := if c ∈ m.pellets then { m with pellets := m.pellets.erase c } else m
  let p1 := if c ∈ m.pellets then { p with score := p.score + 10 } else p
  let e1 : ℕ := if c ∈ m.pellets then 1 else 0
  let m2 := if c ∈ m1.powerPellets then { m1 with powerPellets := m1.powerPellets.erase c } else m1
  let p2 := if c ∈ m1.powerPellets then { p1 with score := p1.score + 50 } else p1
  let e2 : ℕ := if c ∈ m1.powerPellets then 1 else 0
  (m2, p2, e1, e2)

/-- Adversary state (class `Ghost`).  `pos` in sub-tile units.  The constant
per-state speeds are modelled by `currentSpeed`; `color`, `radius` and the
never-read `last_valid_dir` are cosmetic and omitted. -/
structure Ghost where
  start : ℤ × ℤ
  pos : ℤ × ℤ
  dir : ℤ × ℤ
  state : GhostState
  kind : GhostKind
deriving DecidableEq

/-- Oracle model of the global `random` stream: a predetermined sequence of
natural-number draws and a cursor.  Each `random.choice(l)` consumes one draw
`n` and yields `l[n % len(l)]`; every possible run of the program corresponds
to some stream. -/
structure Rng where
  seq : ℕ → ℕ
  idx : ℕ

/-- `random.choice(l)` under the oracle model (the source only calls it on
non-empty lists; the default is never selected then). -/
def randChoice {α : Type} (r : Rng) (l : List α) (dflt : α) : α × Rng :=
  (l.getD (r.seq r.idx % l.length) dflt, { r with idx := r.idx + 1 })

/-- `Ghost._current_speed`: `3.5/TILE_SIZE` when vulnerable (7 sub-tile units),
`7.0/TILE_SIZE` when eaten (14), else `5.0/TILE_SIZE` (10). -/
def currentSpeed (g : Ghost) : ℤ :=
  if g.state = GhostState.vulnerable then 7
  else if g.state = GhostState.eaten then 14
  else 10

/-- `Ghost._valid_neighbors(avoid_reverse)`: scan `ALL_DIRS` in order, skip the
exact reverse of `dir` when `avoid_reverse`, keep directions whose destination
tile from `gp` is in bounds and passable. -/
def validNeighbors (m : Maze) (gp : ℤ × ℤ) (dir : ℤ × ℤ) (avoidReverse : Bool) :
    List (ℤ × ℤ) :=
  ALL_DIRS.filter fun d =>
    (!(avoidReverse && decide (d.1 = -dir.1 ∧ d.2 = -dir.2))) &&
    inBounds m (gp.1 + d.1, gp.2 + d.2) && passable m (gp.1 + d.1, gp.2 + d.2)

/-- `Ghost._target_tile(player_tile)`: house when eaten; when vulnerable the
far corner whose halves oppose the player's half-planes
(`0 if px > width//2 else width-1`, same for y); else the player's tile. -/
def targetTile (m : Maze) (g : Ghost) (playerTile : ℤ × ℤ) : ℤ × ℤ :=
  if g.state = GhostState.eaten then m.housePos
  else if g.state = GhostState.vulnerable then
    ((if m.width / 2 < playerTile.1 then 0 else m.width - 1),
     (if m.height / 2 < playerTile.2 then 0 else m.height - 1))
  else playerTile

/-- Manhattan distance from the tile one step in direction `d` from tile `gp`
to the target `t` (the quantity minimized by `Ghost._choose_dir`). -/
def stepDist (gp t d : ℤ × ℤ) : ℤ := manhattan (gp.1 + d.1, gp.2 + d.2) t

/-- Loop of `Ghost._choose_dir`: keep the first strict improver of the best
distance so far.  (`best_dist` starts at `math.inf`, so the first iteration
always updates; we enter the loop with `best = choices[0]` and its distance.) -/
def chooseDirAux (gp t : ℤ × ℤ) : List (ℤ × ℤ) → ℤ × ℤ → ℤ → ℤ × ℤ
  | [], best, _ => best
  | d :: ds, best, bd =>
      if stepDist gp t d < bd then chooseDirAux gp t ds d (stepDist gp t d)
      else chooseDirAux gp t ds best bd

/-- `Ghost._choose_dir(choices, target)` (greedy variant, class `Ghost` /
`ChaserGhost`): hold the current direction when `choices` is empty, else the
first candidate minimizing the Manhattan distance after one step. -/
def chooseDirGreedy (cur gp t : ℤ × ℤ) (choices : List (ℤ × ℤ)) : ℤ × ℤ :=
  match choices with
  | [] => cur
  | c :: cs => chooseDirAux gp t cs c (stepDist gp t c)

/-- Variant dispatch: `ChaserGhost` uses the greedy `_choose_dir`,
`RandomGhost._choose_dir` holds the current direction on an empty list and
otherwise draws `random.choice(choices)`. -/
def chooseDirKind (g : Ghost) (gp t : ℤ × ℤ) (choices : List (ℤ × ℤ)) (r : Rng) :
    (ℤ × ℤ) × Rng :=
  match g.kind with
  | GhostKind.chaser => (chooseDirGreedy g.dir gp t choices, r)
  | GhostKind.randomGhost =>
      if choices = [] then (g.dir, r) else randChoice r choices STOP

/-- `Ghost.update(player_tile)`: at a tile center re-choose the direction from
the non-reverse candidates (falling back to all candidates at a dead end);
integrate `dir * speed`; then, when eaten and centered exactly on the house
tile, revert to normal and draw a fresh direction from
`_valid_neighbors(avoid_reverse=False)` if that list is non-empty. -/
def ghostUpdate (m : Maze) (pt : ℤ × ℤ) (g : Ghost) (r : Rng) : Ghost × Rng :=
  let dec :=
    if atCenter g.pos = true then
      let gp := roundPos g.pos
      let c1 := validNeighbors m gp g.dir true
      let cands := if c1 = [] then validNeighbors m gp g.dir false else c1
      chooseDirKind g gp (targetTile m g pt) cands r
    else (g.dir, r)
  let npos := (g.pos.1 + dec.1.1 * currentSpeed g, g.pos.2 + dec.1.2 * currentSpeed g)
  if g.state = GhostState.eaten ∧ atCenter npos = true ∧ roundPos npos = m.housePos then
    let c2 := validNeighbors m (roundPos npos) dec.1 false
    if c2 = [] then ({ g with pos := npos, dir := dec.1, state := GhostState.normal }, dec.2)
    else
      let dr := randChoice dec.2 c2 STOP
      ({ g with pos := npos, dir := dr.1, state := GhostState.normal }, dr.2)
  else ({ g with pos := npos, dir := dec.1 }, dec.2)

/-- `Ghost.reset`: position back to the home start, a fresh random direction
from `ALL_DIRS`, state normal. -/
def resetGhost (r : Rng) (g : Ghost) : Ghost × Rng :=
  let dr := randChoice r ALL_DIRS STOP
  ({ g with pos := (48 * g.start.1, 48 * g.start.2), dir := dr.1,
            state := GhostState.normal }, dr.2)

/-- `gg.reset()` applied to every ghost in list order, threading the random
stream. -/
def resetAll (r : Rng) : List Ghost → List Ghost × Rng
  | [] => ([], r)
  | g :: gs =>
      let h := resetGhost r g
      let t := resetAll h.2 gs
      (h.1 :: t.1, t.2)

/-- `Ghost.set_vulnerable`: become vulnerable unless eaten. -/
def setVulnerable (g : Ghost) : Ghost :=
  if g.state ≠ GhostState.eaten then { g with state := GhostState.vulnerable } else g

/-- The timer-expiry revert (`_update` lines 410-413): a vulnerable ghost goes
back to normal, others are unaffected. -/
def unVulnerable (g : Ghost) : Ghost :=
  if g.state = GhostState.vulnerable then { g with state := GhostState.normal } else g

/-- Round/session state (class `Game`): maze, player, adversaries, the power
timer in frames, the `running`/`win` flags and the random stream. -/
structure Game where
  maze : Maze
  player : Player
  ghosts : List Ghost
  powerTimer : ℤ
  running : Bool
  win : Bool
  rng : Rng

/-- Power-pellet application (`_update` lines 397-400):
`power_timer = int(power_duration_sec * FPS)` with `power_duration_sec = 7`
and `FPS = 60`, then `set_vulnerable` on every ghost. -/
def applyPower (s : Game) : Game :=
  { s with powerTimer := 7 * 60, ghosts := s.ghosts.map setVulnerable }

/-- Player phase of `Game._update`: `player.update()` then
`player.eat_pellets()`; returns the updated game and the two counts. -/
def tickPlayer (s : Game) : Game × ℕ × ℕ :=
  let p1 := playerUpdate s.maze s.player
  let e := eatPellets s.maze p1
  ({ s with maze := e.1, player := e.2.1 }, e.2.2.1, e.2.2.2)

/-- `for g in self.ghosts: g.update(player_tile)`, threading the random
stream in list order. -/
def updateGhosts (m : Maze) (pt : ℤ × ℤ) : List Ghost → Rng → List Ghost × Rng
  | [], r => ([], r)
  | g :: gs, r =>
      let h := ghostUpdate m pt g r
      let t := updateGhosts m pt gs h.2
      (h.1 :: t.1, t.2)

/-- Power-timer countdown (`_update` lines 408-413): decrement when positive;
exactly on reaching zero revert every still-vulnerable ghost. -/
def timerStep (s : Game) : Game :=
  if 0 < s.powerTimer then
    if s.powerTimer - 1 = 0 then
      { s with powerTimer := s.powerTimer - 1, ghosts := s.ghosts.map unVulnerable }
    else { s with powerTimer := s.powerTimer - 1 }
  else s

/-- Body of the `for g in self.ghosts` loop of `Game._check_collisions` for the
ghost at index `i`, with `pp` the pixel point computed once at entry.  A
vulnerable collider is eaten (+200); an eaten collider has no effect; any other
collider costs a life, ending the round at zero lives and otherwise resetting
the player to the maze start, resetting every ghost, and clearing the power
timer. -/
def collideGhost (pp : ℤ × ℤ) (s : Game) (i : ℕ) : Game :=
  match s.ghosts[i]? with
  | none => s
  | some g =>
      if collideB pp (gridToPx g.pos) = true then
        if g.state = GhostState.vulnerable then
          { s with ghosts := s.ghosts.set i { g with state := GhostState.eaten },
                   player := { s.player with score := s.player.score + 200 } }
        else if g.state = GhostState.eaten then s
        else
          if s.player.lives - 1 ≤ 0 then
            { s with player := { s.player with lives := s.player.lives - 1 },
                     running := false }
          else
            let rr := resetAll s.rng s.ghosts
            { s with player := { s.player with
                                   lives := s.player.lives - 1,
                                   pos := (48 * s.maze.playerStart.1,
                                           48 * s.maze.playerStart.2) },
                     ghosts := rr.1, rng := rr.2, powerTimer := 0 }
      else s

/-- The collision loop, processing indices `i, i+1, ...` with `fuel` steps
remaining.  The Python `for` iterates over the fixed-length ghost list while
the per-ghost effects mutate its elements; no effect changes the length. -/
def ccAux (pp : ℤ × ℤ) : ℕ → ℕ → Game → Game
  | 0, _, s => s
  | n + 1, i, s => ccAux pp n (i + 1) (collideGhost pp s i)

/-- `Game._check_collisions`: `pp = grid_to_px(player.pos)` computed once at
entry, then the loop over all ghosts. -/
def checkCollisions (s : Game) : Game :=
  ccAux (gridToPx s.player.pos) s.ghosts.length 0 s

/-- Remainder of `Game._update` after the power-pellet handling: ghost updates
with the player's rounded tile, timer countdown, collisions, and the win check
(`win` and `running` set when both pellet sets are exhausted). -/
def tickRest (s : Game) : Game :=
  let pt := roundPos s.player.pos
  let gr := updateGhosts s.maze pt s.ghosts s.rng
  let s4 := { s with ghosts := gr.1, rng := gr.2 }
  let s5 := timerStep s4
  let s6 := checkCollisions s5
  if s6.maze.pellets = [] ∧ s6.maze.powerPellets = [] then
    { s6 with win := true, running := false }
  else s6

/-- One full simulation tick (`Game._update`): player phase, then the
power-pellet branch (`if power > 0`), then the rest of the tick. -/
def gameTick (s : Game) : Game :=
  if 0 < (tickPlayer s).2.2 then tickRest (applyPower (tickPlayer s).1)
  else tickRest (tickPlayer s).1

/-- `Ghost.__init__`/`RandomGhost`/`ChaserGhost` construction: float position
at the start tile, a fresh random initial direction, state normal. -/
def ghostInit (start : ℤ × ℤ) (k : GhostKind) (r : Rng) : Ghost × Rng :=
  let dr := randChoice r ALL_DIRS STOP
  ({ start := start, pos := (48 * start.1, 48 * start.2), dir := dr.1,
     state := GhostState.normal, kind := k }, dr.2)

/-- `Game.__init__` ghost construction: the first spawn becomes a
`ChaserGhost`, every later spawn a `RandomGhost`. -/
def ghostsInit : List (ℤ × ℤ) → ℕ → Rng → List Ghost × Rng
  | [], _, r => ([], r)
  | c :: cs, i, r =>
      let k := if i = 0 then GhostKind.chaser else GhostKind.randomGhost
      let h := ghostInit c k r
      let t := ghostsInit cs (i + 1) h.2
      (h.1 :: t.1, t.2)

/-- `Game.__init__`: the built-in maze, the player at the maze start, the
ghosts from the spawn list, timer 0, `running` true, `win` false. -/
def gameInit (r : Rng) : Game :=
  let m := buildMaze
  let gs := ghostsInit m.ghostStarts 0 r
  { maze := m, player := playerInit m.playerStart, ghosts := gs.1,
    powerTimer := 0, running := true, win := false, rng := gs.2 }

/-- `n` consecutive `Ghost.update(player_tile)` calls against a fixed maze and
player tile, threading the random stream. -/
def ghostIter (m : Maze) (pt : ℤ × ℤ) : ℕ → Ghost × Rng → Ghost × Rng
  | 0, p => p
  | n + 1, p => ghostIter m pt n (ghostUpdate m pt p.1 p.2)

/-- The property that a coordinate is an exact integer multiple of 1/4 of a
tile (12 sub-tile units). -/
def quarterMul (z : ℤ) : Prop := ∃ k : ℤ, z = 12 * k

/-- Overapproximation of the player states reachable in any run of the
program: construction at an integer tile (`Player.__init__` from any maze's
`player_start`), latched input (`handle_input` writes `next_dir`),
`Player.update` against the maze current at that tick (pellet consumption
changes the maze's pellet sets between ticks, so the maze argument is
arbitrary; walls never change), `eat_pellets` (score only), the +200 capture
bonus, and the life-loss reset (`lives -= 1` and `pos = player_start`).  Every
player state an execution produces is `PReach`-reachable. -/
inductive PReach : Player → Prop
  | base (c : ℤ × ℤ) : PReach (playerInit c)
  | inp (p : Player) (d : ℤ × ℤ) : PReach p → PReach { p with nextDir := d }
  | upd (p : Player) (m : Maze) : PReach p → PReach (playerUpdate m p)
  | eat (p : Player) (m : Maze) : PReach p → PReach (eatPellets m p).2.1
  | bonus (p : Player) (n : ℤ) : PReach p → PReach { p with score := p.score + n }
  | lifeLoss (p : Player) (c : ℤ × ℤ) : PReach p →
      PReach { p with lives := p.lives - 1, pos := (48 * c.1, 48 * c.2) }

/-- A deterministic random stream: every draw is 0. -/
def rngZero : Rng := { seq := fun _ => 0, idx := 0 }

/-- A deterministic random stream: every draw is 1. -/
def rngOne : Rng := { seq := fun _ => 1, idx := 0 }

/-- An eaten (Captured) adversary one eaten-speed step left of the house tile
`(12,7)` of the built-in maze, heading right: position `12 - 14/48` tiles,
i.e. `(48*12 - 14, 48*7)` sub-tile units. -/
def houseGhost : Ghost :=
  { start := (11, 9), pos := (48 * 12 - 14, 48 * 7), dir := RIGHT,
    state := GhostState.eaten, kind := GhostKind.chaser }

/-- An eaten (Captured) adversary exactly centered on tile `(8,6)` of the
built-in maze, heading down.  Below it the corridor continues one tile,
`(8,7)`, and then hits the wall `(8,8)`. -/
def corridorGhost : Ghost :=
  { start := (11, 9), pos := (48 * 8, 48 * 6), dir := DOWN,
    state := GhostState.eaten, kind := GhostKind.chaser }

/-- A game state in which one Vulnerable and one Threat adversary both overlap
the player: the player at tile `(5,5)`, a vulnerable adversary at `5.25` tiles
(12 sub-tile units right of it) and a normal-state adversary the same distance
left of it, with 3 lives. -/
def doubleHitState : Game :=
  { maze := buildMaze,
    player := { pos := (240, 240), dir := STOP, nextDir := STOP, speed := 12,
                lives := 3, score := 0 },
    ghosts := [{ start := (2, 2), pos := (252, 240), dir := STOP,
                 state := GhostState.vulnerable, kind := GhostKind.chaser },
               { start := (3, 3), pos := (228, 240), dir := STOP,
                 state := GhostState.normal, kind := GhostKind.randomGhost }],
    powerTimer := 50, running := true, win := false, rng := rngZero }

/-- A game state in which this tick's player movement creates a collision that
the pre-tick player position would not: the player at tile `(10,5)` moving
right at 1/4 tile per tick, a vulnerable adversary fleeing right from
`10.625` tiles (`510` sub-tile units) on the same row. -/
def approachState : Game :=
  { maze := buildMaze,
    player := { pos := (480, 240), dir := RIGHT, nextDir := RIGHT, speed := 12,
                lives := 3, score := 0 },
    ghosts := [{ start := (6, 9), pos := (510, 240), dir := RIGHT,
                 state := GhostState.vulnerable, kind := GhostKind.chaser }],
    powerTimer := 100, running := true, win := false, rng := rngZero }

/-- A 3x3 all-wall layout containing no `P` marker. -/
def noSpawnLayout : List (List Char) :=
  [['#', '#', '#'], ['#', '#', '#'], ['#', '#', '#']]

/-- A game state with the player resting on the power pellet tile `(1,3)` of
the built-in maze and one ghost far away, used to exercise the power-pellet
branch of `Game._update`. -/
def powerState : Game :=
  { maze := buildMaze,
    player := { pos := (48, 144), dir := STOP, nextDir := STOP, speed := 12,
                lives := 3, score := 0 },
    ghosts := [{ start := (6, 9), pos := (48 * 6, 48 * 9), dir := UP,
                 state := GhostState.normal, kind := GhostKind.chaser }],
    powerTimer := 5, running := true, win := false, rng := rngZero }

/-- A vulnerable adversary (used to instantiate flee-target statements). -/
def fleeGhost : Ghost :=
  { start := (2, 2), pos := (96, 96), dir := UP,
    state := GhostState.vulnerable, kind := GhostKind.chaser }

/-- A ghost whose current heading is right (used to instantiate candidate-list
statements at tile `(1,1)` of the built-in maze). -/
def rightGhost : Ghost :=
  { start := (1, 1), pos := (48, 48), dir := RIGHT,
    state := GhostState.normal, kind := GhostKind.chaser }

/-- A game state with a single Threat adversary overlapping the player (the
player at tile `(5,5)`, the adversary 1/4 tile to its right) and 3 lives. -/
def singleThreatState : Game :=
  { maze := buildMaze,
    player := { pos := (240, 240), dir := STOP, nextDir := STOP, speed := 12,
                lives := 3, score := 0 },
    ghosts := [{ start := (6, 9), pos := (252, 240), dir := STOP,
                 state := GhostState.normal, kind := GhostKind.chaser }],
    powerTimer := 30, running := true, win := false, rng := rngZero }

/-- Like `singleThreatState` but with the adversary Vulnerable. -/
def singleVulnState : Game :=
  { maze := buildMaze,
    player := { pos := (240, 240), dir := STOP, nextDir := STOP, speed := 12,
                lives := 3, score := 0 },
    ghosts := [{ start := (6, 9), pos := (252, 240), dir := STOP,
                 state := GhostState.vulnerable, kind := GhostKind.chaser }],
    powerTimer := 30, running := true, win := false, rng := rngZero }

/-- A two-adversary state: the first (Threat) overlaps the player, the second
is far away; used to observe the collision pass around a life-loss reset. -/
def twoGhostState : Game :=
  { maze := buildMaze,
    player := { pos := (240, 240), dir := STOP, nextDir := STOP, speed := 12,
                lives := 3, score := 0 },
    ghosts := [{ start := (6, 9), pos := (252, 240), dir := STOP,
                 state := GhostState.normal, kind := GhostKind.chaser },
               { start := (19, 9), pos := (48 * 20, 48 * 13), dir := STOP,
                 state := GhostState.normal, kind := GhostKind.randomGhost }],
    powerTimer := 0, running := true, win := false, rng := rngZero }

set_option maxRecDepth 1000000

/-- Helper: with integer arguments, `10 * |w| < 48` is the two-sided window
`-4 ≤ w ≤ 4`. -/
theorem ten_abs_lt_iff (w : ℤ) : 10 * |w| < 48 ↔ (-4 ≤ w ∧ w ≤ 4) := by
  rcases abs_cases w with ⟨h1, _⟩ | ⟨h1, _⟩ <;> rw [h1] <;> omega

/-- Helper: on quarter-tile coordinates the centering window accepts only
exact tile centers. -/
theorem quarter_center_iff (z : ℤ) (h : 12 ∣ z) :
    (10 * |z - 48 * pyRound48 z| < 48) ↔ 48 ∣ z := by
  rw [ten_abs_lt_iff]
  unfold pyRound48
  split_ifs with h1 h2 h3 <;> omega

/-- Helper: the Boolean centering test unfolded. -/
theorem atCenter_eq_true_iff (p : ℤ × ℤ) :
    atCenter p = true ↔
      (10 * |p.1 - 48 * pyRound48 p.1| < 48 ∧ 10 * |p.2 - 48 * pyRound48 p.2| < 48) := by
  simp [atCenter]

/-- Claim C6: the specification demands that a maze layout with no player
spawn marker fail at construction with a descriptive error.  The code has no
failure path at all: on an all-wall layout with no `P`, construction succeeds
and silently keeps the default `player_start = (1, 1)`, which here is itself a
wall tile. -/
theorem missing_player_spawn_silent_default :
    (mazeOfLayout noSpawnLayout).playerStart = (1, 1) ∧
    (1, 1) ∈ (mazeOfLayout noSpawnLayout).walls ∧
    (∀ row ∈ noSpawnLayout, 'P' ∉ row) := by decide

/-- Claim C1 (code bug): a Captured adversary that reaches the house tile
while centered does transition to Threat in the same `Ghost.update`, but the
direction re-choice is drawn from `_valid_neighbors(avoid_reverse=False)`
(although the adjacent source comment says "away from reversing"): the exact
reverse of the heading is a candidate, and with a stream drawing index 1 the
adversary adopts it even though a non-reverse legal direction (`DOWN`)
exists.  Here the adversary starts one eaten-speed step left of the house
`(12, 7)` heading right, lands exactly on the house center, and leaves
heading left. -/
theorem captured_house_reverse_not_excluded :
    (ghostUpdate buildMaze (1, 1) houseGhost rngOne).1.state = GhostState.normal ∧
    (ghostUpdate buildMaze (1, 1) houseGhost rngOne).1.pos = (48 * 12, 48 * 7) ∧
    atCenter (48 * 12, 48 * 7) = true ∧
    roundPos (48 * 12, 48 * 7) = buildMaze.housePos ∧
    (ghostUpdate buildMaze (1, 1) houseGhost rngOne).1.dir =
      (-houseGhost.dir.1, -houseGhost.dir.2) ∧
    DOWN ∈ validNeighbors buildMaze (12, 7) houseGhost.dir false ∧
    DOWN ≠ (-houseGhost.dir.1, -houseGhost.dir.2) := by decide

/-- Claim C2 (code bug): an eaten (Captured) adversary moves 14/48 of a tile
per tick while the centering window only spans offsets up to 4/48, so it can
jump over a tile-center detection and keep going past the last tile its
decision validated.  From the exact center of `(8, 6)` of the built-in maze,
heading down (the only candidate), the corridor is open at `(8, 7)` but walled
at `(8, 8)`; after six updates the adversary's position is `7.75` tiles, whose
rounded grid coordinate is the wall tile `(8, 8)`. -/
theorem eaten_ghost_rounds_into_wall :
    atCenter corridorGhost.pos = true ∧
    roundPos corridorGhost.pos = (8, 6) ∧
    (8, 6) ∉ buildMaze.walls ∧ (8, 7) ∉ buildMaze.walls ∧
    (ghostIter buildMaze (1, 1) 6 (corridorGhost, rngZero)).1.pos = (48 * 8, 372) ∧
    roundPos ((ghostIter buildMaze (1, 1) 6 (corridorGhost, rngZero)).1.pos) = (8, 8) ∧
    (8, 8) ∈ buildMaze.walls := by decide

/-- Claim C5, counterexample: a Vulnerable adversary colliding with the player
becomes Captured and awards +200, but when a Threat adversary processed later
in the same collision pass also collides (with 3 lives), the life-loss reset
returns EVERY adversary — including the just-captured one — to the Threat
state within the same tick. -/
theorem captured_reverted_by_later_threat_collision :
    doubleHitState.ghosts.map Ghost.state = [GhostState.vulnerable, GhostState.normal] ∧
    (∀ g ∈ doubleHitState.ghosts,
       collideB (gridToPx doubleHitState.player.pos) (gridToPx g.pos) = true) ∧
    2 ≤ doubleHitState.player.lives ∧
    (checkCollisions doubleHitState).player.score = doubleHitState.player.score + 200 ∧
    (checkCollisions doubleHitState).ghosts.map Ghost.state =
      [GhostState.normal, GhostState.normal] := by decide

/-- Claim C7, counterexample: collisions are evaluated against the player
position AFTER this tick's movement, not the pre-tick one.  The player starts
the tick at tile `(10, 5)` moving right; the vulnerable adversary at `10.625`
tiles flees right to `517/48` tiles.  The adversary is captured (so a
collision was registered), yet the distance from the PRE-TICK player position
to the adversary — at its evaluated position or even at its own pre-tick
position — is not below `0.6 * TILE_SIZE`. -/
theorem collision_registered_against_postmove_position :
    approachState.ghosts.map Ghost.state = [GhostState.vulnerable] ∧
    (gameTick approachState).ghosts.map Ghost.state = [GhostState.eaten] ∧
    (gameTick approachState).player.score = approachState.player.score + 10 + 200 ∧
    (gameTick approachState).ghosts.map Ghost.pos = [(517, 240)] ∧
    collideB (gridToPx approachState.player.pos) (gridToPx (517, 240)) = false ∧
    collideB (gridToPx approachState.player.pos) (gridToPx (510, 240)) = false := by decide

/-- Claim C10: for a Vulnerable adversary the flee target uses a strict
`>` half-plane comparison, so a player tile coordinate exactly equal to
`width // 2` (resp. `height // 2`) selects the far coordinate `width - 1`
(resp. `height - 1`); and the target is always one of the four corner tiles,
with no wall check. -/
theorem vulnerable_far_corner_target (m : Maze) (g : Ghost) (pt : ℤ × ℤ)
    (hv : g.state = GhostState.vulnerable) :
    (pt.1 = m.width / 2 → (targetTile m g pt).1 = m.width - 1) ∧
    (pt.2 = m.height / 2 → (targetTile m g pt).2 = m.height - 1) ∧
    targetTile m g pt ∈
      [((0 : ℤ), (0 : ℤ)), (0, m.height - 1), (m.width - 1, 0),
       (m.width - 1, m.height - 1)] := by
  have hne : g.state ≠ GhostState.eaten := by rw [hv]; intro hcon; cases hcon
  unfold targetTile
  rw [if_neg hne, if_pos hv]
  refine ⟨?_, ?_, ?_⟩
  · intro h
    simp only []
    rw [if_neg (by omega)]
  · intro h
    simp only []
    rw [if_neg (by omega)]
  · split_ifs <;> simp

/-- Witness for C10: on the built-in maze (`width = 25`, `height = 15`) a
player tile of exactly `(12, 7) = (25 / 2, 15 / 2)` sends a vulnerable
adversary toward the corner `(24, 14)`. -/
theorem vulnerable_far_corner_target_witness :
    (targetTile buildMaze fleeGhost (12, 7)).1 = 24 ∧
    (targetTile buildMaze fleeGhost (12, 7)).2 = 14 := by
  have h := vulnerable_far_corner_target buildMaze fleeGhost (12, 7) rfl
  have h1 := h.1 (by decide)
  have h2 := h.2.1 (by decide)
  rw [h1, h2]
  decide

/-- Claim C4: collecting a power pellet sets the timer to exactly
`int(7 * FPS) = 420` — an assignment, never an addition to the remaining
value, whatever that value is — and `set_vulnerable` turns every non-Captured
adversary Vulnerable while an eaten (Captured) adversary keeps its state and
no other ghost field changes; and whenever the tick's player phase consumed a
power pellet, the tick routes through exactly this application. -/
theorem power_pellet_restart_and_vulnerability (s : Game) :
    (applyPower s).powerTimer = 7 * 60 ∧
    (applyPower s).ghosts = s.ghosts.map setVulnerable ∧
    (∀ g : Ghost,
      (setVulnerable g).state =
        (if g.state = GhostState.eaten then GhostState.eaten else GhostState.vulnerable) ∧
      (setVulnerable g).pos = g.pos ∧ (setVulnerable g).dir = g.dir ∧
      (setVulnerable g).start = g.start ∧ (setVulnerable g).kind = g.kind) ∧
    (0 < (tickPlayer s).2.2 → gameTick s = tickRest (applyPower (tickPlayer s).1)) := by
  refine ⟨rfl, rfl, ?_, ?_⟩
  · intro g
    unfold setVulnerable
    by_cases h : g.state = GhostState.eaten
    · simp [h]
    · simp [h]
  · intro h
    unfold gameTick
    rw [if_pos h]

/-- Witness for C4: from `powerState` (player resting on the power pellet
`(1, 3)` of the built-in maze, timer already positive at 5) the tick consumes
the pellet and routes through `applyPower`, whose timer is the full 420. -/
theorem power_pellet_restart_witness :
    gameTick powerState = tickRest (applyPower (tickPlayer powerState).1) ∧
    (applyPower (tickPlayer powerState).1).powerTimer = 7 * 60 ∧
    0 < (tickPlayer powerState).2.2 := by
  have hp : 0 < (tickPlayer powerState).2.2 := by decide
  exact ⟨(power_pellet_restart_and_vulnerability powerState).2.2.2 hp,
         (power_pellet_restart_and_vulnerability (tickPlayer powerState).1).1, hp⟩

/-- Unfolding equation: the greedy scan on an empty list keeps the best. -/
theorem chooseDirAux_nil (gp t best : ℤ × ℤ) (bd : ℤ) :
    chooseDirAux gp t [] best bd = best := rfl

/-- Unfolding equation: one iteration of the greedy scan. -/
theorem chooseDirAux_step (gp t d best : ℤ × ℤ) (ds : List (ℤ × ℤ)) (bd : ℤ) :
    chooseDirAux gp t (d :: ds) best bd =
      if stepDist gp t d < bd then chooseDirAux gp t ds d (stepDist gp t d)
      else chooseDirAux gp t ds best bd := rfl

/-- The greedy scan returns one of its inputs. -/
theorem chooseDirAux_mem (gp t : ℤ × ℤ) :
    ∀ (ds : List (ℤ × ℤ)) (best : ℤ × ℤ) (bd : ℤ),
      chooseDirAux gp t ds best bd ∈ best :: ds := by
  intro ds
  induction ds with
  | nil => intro best bd; rw [chooseDirAux_nil]; exact List.mem_cons_self best []
  | cons d ds ih =>
    intro best bd
    rw [chooseDirAux_step]
    split_ifs with h
    · have := ih d (stepDist gp t d)
      simp [List.mem_cons] at this ⊢
      tauto
    · have := ih best bd
      simp [List.mem_cons] at this ⊢
      tauto

/-- Entered with the distance of the current best, the greedy scan returns a
global minimizer of the one-step Manhattan distance. -/
theorem chooseDirAux_min (gp t : ℤ × ℤ) :
    ∀ (ds : List (ℤ × ℤ)) (best : ℤ × ℤ),
      ∀ x ∈ best :: ds,
        stepDist gp t (chooseDirAux gp t ds best (stepDist gp t best)) ≤ stepDist gp t x := by
  intro ds
  induction ds with
  | nil =>
    intro best x hx
    rcases List.mem_cons.mp hx with rfl | hx'
    · rw [chooseDirAux_nil]
    · cases hx'
  | cons d ds ih =>
    intro best x hx
    rw [chooseDirAux_step]
    split_ifs with h
    · rcases List.mem_cons.mp hx with rfl | hx'
      · have hr := ih d d (List.mem_cons_self d ds)
        omega
      · rcases List.mem_cons.mp hx' with rfl | hx''
        · exact ih x x (List.mem_cons_self x ds)
        · exact ih d x (List.mem_cons_of_mem d hx'')
    · rcases List.mem_cons.mp hx with rfl | hx'
      · exact ih x x (List.mem_cons_self x ds)
      · rcases List.mem_cons.mp hx' with rfl | hx''
        · have hr := ih best best (List.mem_cons_self best ds)
          omega
        · exact ih best x (List.mem_cons_of_mem best hx'')

/-- The greedy scan (strict-improvement update) returns the FIRST minimizer:
everything placed before the result in the input list has strictly larger
one-step distance. -/
theorem chooseDirAux_first (gp t : ℤ × ℤ) :
    ∀ (ds : List (ℤ × ℤ)) (best : ℤ × ℤ),
      ∃ pre post,
        best :: ds = pre ++ chooseDirAux gp t ds best (stepDist gp t best) :: post ∧
        ∀ e ∈ pre, stepDist gp t (chooseDirAux gp t ds best (stepDist gp t best)) < stepDist gp t e := by
  intro ds
  induction ds with
  | nil =>
    intro best
    refine ⟨[], [], ?_, by simp⟩
    rw [chooseDirAux_nil, List.nil_append]
  | cons d ds ih =>
    intro best
    by_cases h : stepDist gp t d < stepDist gp t best
    · have heq : chooseDirAux gp t (d :: ds) best (stepDist gp t best) =
          chooseDirAux gp t ds d (stepDist gp t d) := by
        rw [chooseDirAux_step, if_pos h]
      obtain ⟨pre, post, hdec, hstr⟩ := ih d
      rw [heq]
      refine ⟨best :: pre, post, ?_, ?_⟩
      · rw [List.cons_append, ← hdec]
      · intro e he
        rcases List.mem_cons.mp he with rfl | he'
        · have hm := chooseDirAux_min gp t ds d d (List.mem_cons_self d ds)
          omega
        · exact hstr e he'
    · have heq : chooseDirAux gp t (d :: ds) best (stepDist gp t best) =
          chooseDirAux gp t ds best (stepDist gp t best) := by
        rw [chooseDirAux_step, if_neg h]
      obtain ⟨pre, post, hdec, hstr⟩ := ih best
      rw [heq]
      cases pre with
      | nil =>
        rw [List.nil_append] at hdec
        have h1 : best = chooseDirAux gp t ds best (stepDist gp t best) :=
          (List.cons.inj hdec).1
        refine ⟨[], d :: ds, ?_, by simp⟩
        rw [List.nil_append, ← h1]
      | cons q pre2 =>
        rw [List.cons_append] at hdec
        have hinj := List.cons.inj hdec
        refine ⟨best :: d :: pre2, post, ?_, ?_⟩
        · rw [List.cons_append, List.cons_append, ← hinj.2]
        · intro e he
          have hbest : stepDist gp t (chooseDirAux gp t ds best (stepDist gp t best)) <
              stepDist gp t best := by
            have hs := hstr q (List.mem_cons_self q pre2)
            rw [← hinj.1] at hs
            exact hs
          rcases List.mem_cons.mp he with rfl | he'
          · exact hbest
          · rcases List.mem_cons.mp he' with rfl | he''
            · omega
            · exact hstr e (List.mem_cons_of_mem q he'')

/-- Claim C8: for a Pursuer with a non-empty candidate list (as produced by
`_valid_neighbors`, which scans `ALL_DIRS = [UP, DOWN, LEFT, RIGHT]` in order)
the chosen direction is a member of the candidates, minimizes the Manhattan
distance from the tile after one step to the target, and is the FIRST
candidate attaining the minimum; the candidate list is an order-preserving
sublist of the fixed enumeration `ALL_DIRS`, so "first candidate" is "first in
the enumeration order among candidates". -/
theorem pursuer_greedy_first_minimizer (m : Maze) (g : Ghost) (gp t c : ℤ × ℤ)
    (cs : List (ℤ × ℤ)) (avoidReverse : Bool)
    (hne : validNeighbors m gp g.dir avoidReverse = c :: cs) :
    chooseDirGreedy g.dir gp t (c :: cs) ∈ c :: cs ∧
    (∀ d ∈ c :: cs, stepDist gp t (chooseDirGreedy g.dir gp t (c :: cs)) ≤ stepDist gp t d) ∧
    (∃ pre post, c :: cs = pre ++ chooseDirGreedy g.dir gp t (c :: cs) :: post ∧
       ∀ e ∈ pre, stepDist gp t (chooseDirGreedy g.dir gp t (c :: cs)) < stepDist gp t e) ∧
    (c :: cs).Sublist ALL_DIRS := by
  have hgr : chooseDirGreedy g.dir gp t (c :: cs) = chooseDirAux gp t cs c (stepDist gp t c) := rfl
  refine ⟨?_, ?_, ?_, ?_⟩
  · rw [hgr]; exact chooseDirAux_mem gp t cs c (stepDist gp t c)
  · rw [hgr]; exact fun d hd => chooseDirAux_min gp t cs c d hd
  · rw [hgr]; exact chooseDirAux_first gp t cs c
  · rw [← hne]; exact List.filter_sublist ALL_DIRS

/-- Witness for C8: at tile `(1, 1)` of the built-in maze heading right, the
candidates are `[DOWN, RIGHT]`; toward the target `(5, 1)` the greedy choice
is a minimizing member of that list. -/
theorem pursuer_greedy_first_minimizer_witness :
    chooseDirGreedy rightGhost.dir (1, 1) (5, 1) [DOWN, RIGHT] ∈ [DOWN, RIGHT] ∧
    (∀ d ∈ [DOWN, RIGHT],
      stepDist (1, 1) (5, 1) (chooseDirGreedy rightGhost.dir (1, 1) (5, 1) [DOWN, RIGHT]) ≤
        stepDist (1, 1) (5, 1) d) ∧
    [DOWN, RIGHT].Sublist ALL_DIRS := by
  have h := pursuer_greedy_first_minimizer buildMaze rightGhost (1, 1) (5, 1) DOWN [RIGHT]
    true (by decide)
  exact ⟨h.1, h.2.1, h.2.2.2⟩

/-- Rounding is exact on tile centers. -/
theorem pyRound48_exact (a : ℤ) : pyRound48 (48 * a) = a := by
  unfold pyRound48
  have h1 : (48 * a) % 48 = 0 := Int.mul_emod_right 48 a
  have h2 : (48 * a) / 48 = a := Int.mul_ediv_cancel_left a (by norm_num)
  rw [h1, h2]
  norm_num

/-- The direction-latch statement does not move the player or change speed. -/
theorem applyNextDir_pos_speed (m : Maze) (p : Player) :
    (applyNextDir m p).pos = p.pos ∧ (applyNextDir m p).speed = p.speed := by
  unfold applyNextDir; split_ifs <;> exact ⟨rfl, rfl⟩

/-- The stop statement does not move the player or change speed. -/
theorem stopIfBlocked_pos_speed (m : Maze) (p : Player) :
    (stopIfBlocked m p).pos = p.pos ∧ (stopIfBlocked m p).speed = p.speed := by
  unfold stopIfBlocked; split_ifs <;> exact ⟨rfl, rfl⟩

/-- The defensive clamp either snaps to an exact tile center or leaves the
position unchanged; speed is untouched. -/
theorem clampInsideWalls_pos (m : Maze) (p : Player) :
    ((∃ a b : ℤ, (clampInsideWalls m p).pos = (48 * a, 48 * b)) ∨
      (clampInsideWalls m p).pos = p.pos) ∧ (clampInsideWalls m p).speed = p.speed := by
  unfold clampInsideWalls
  split_ifs
  · exact ⟨Or.inl ⟨_, _, rfl⟩, rfl⟩
  · exact ⟨Or.inr rfl, rfl⟩

/-- `Player.update` never changes the speed. -/
theorem playerUpdate_speed (m : Maze) (p : Player) : (playerUpdate m p).speed = p.speed := by
  unfold playerUpdate integrate
  rw [(clampInsideWalls_pos m _).2]
  show (stopIfBlocked m (applyNextDir m p)).speed = p.speed
  rw [(stopIfBlocked_pos_speed m _).2, (applyNextDir_pos_speed m p).2]

/-- One `Player.update` either snaps the position to an exact tile center or
adds an integer direction vector times the speed to each coordinate. -/
theorem playerUpdate_pos (m : Maze) (p : Player) :
    (∃ a b : ℤ, (playerUpdate m p).pos = (48 * a, 48 * b)) ∨
    (∃ d : ℤ × ℤ, (playerUpdate m p).pos =
      (p.pos.1 + d.1 * p.speed, p.pos.2 + d.2 * p.speed)) := by
  unfold playerUpdate
  rcases (clampInsideWalls_pos m (integrate (stopIfBlocked m (applyNextDir m p)))).1 with
    ⟨a, b, hab⟩ | hsame
  · exact Or.inl ⟨a, b, hab⟩
  · right
    refine ⟨(stopIfBlocked m (applyNextDir m p)).dir, ?_⟩
    rw [hsame]
    show ((stopIfBlocked m (applyNextDir m p)).pos.1 +
            (stopIfBlocked m (applyNextDir m p)).dir.1 *
              (stopIfBlocked m (applyNextDir m p)).speed,
          (stopIfBlocked m (applyNextDir m p)).pos.2 +
            (stopIfBlocked m (applyNextDir m p)).dir.2 *
              (stopIfBlocked m (applyNextDir m p)).speed) = _
    rw [(stopIfBlocked_pos_speed m _).1, (applyNextDir_pos_speed m p).1,
        (stopIfBlocked_pos_speed m _).2, (applyNextDir_pos_speed m p).2]

/-- `Player.eat_pellets` changes neither position nor speed. -/
theorem eatPellets_player_pos (m : Maze) (p : Player) :
    (eatPellets m p).2.1.pos = p.pos ∧ (eatPellets m p).2.1.speed = p.speed := by
  unfold eatPellets
  dsimp only
  split_ifs <;> exact ⟨rfl, rfl⟩

/-- Claim C9: in every reachable player state both coordinates are exact
integer multiples of 1/4 of a tile (12 sub-tile units): the speed is exactly
`6.0/TILE_SIZE = 0.25` tiles per tick (the field equals 12 sub-tile units),
construction and the life-loss reset put the player on integer tiles, and
each update adds a direction component times the speed (or snaps to a tile
center).  Consequently the centering test (offset below 0.1 of a tile)
succeeds exactly when the player sits on an exact integer tile center — no
drift ever accumulates. -/
theorem player_quarter_tile_alignment (p : Player) (h : PReach p) :
    quarterMul p.pos.1 ∧ quarterMul p.pos.2 ∧ p.speed = 12 ∧
    (atCenter p.pos = true ↔ ∃ a b : ℤ, p.pos = (48 * a, 48 * b)) := by
  have key : quarterMul p.pos.1 ∧ quarterMul p.pos.2 ∧ p.speed = 12 := by
    induction h with
    | base c =>
      exact ⟨⟨4 * c.1, by show (48 * c.1 : ℤ) = 12 * (4 * c.1); ring⟩,
             ⟨4 * c.2, by show (48 * c.2 : ℤ) = 12 * (4 * c.2); ring⟩, rfl⟩
    | inp p d hp ih => exact ih
    | upd p m hp ih =>
      obtain ⟨⟨k1, hk1⟩, ⟨k2, hk2⟩, hs⟩ := ih
      rcases playerUpdate_pos m p with ⟨a, b, hab⟩ | ⟨d, hd⟩
      · exact ⟨⟨4 * a, by rw [hab]; ring⟩, ⟨4 * b, by rw [hab]; ring⟩,
               by rw [playerUpdate_speed]; exact hs⟩
      · refine ⟨⟨k1 + d.1, ?_⟩, ⟨k2 + d.2, ?_⟩, by rw [playerUpdate_speed]; exact hs⟩
        · rw [hd]; show p.pos.1 + d.1 * p.speed = 12 * (k1 + d.1); rw [hk1, hs]; ring
        · rw [hd]; show p.pos.2 + d.2 * p.speed = 12 * (k2 + d.2); rw [hk2, hs]; ring
    | eat p m hp ih =>
      have he := eatPellets_player_pos m p
      rw [he.1, he.2]
      exact ih
    | bonus p n hp ih => exact ih
    | lifeLoss p c hp ih =>
      exact ⟨⟨4 * c.1, by show (48 * c.1 : ℤ) = 12 * (4 * c.1); ring⟩,
             ⟨4 * c.2, by show (48 * c.2 : ℤ) = 12 * (4 * c.2); ring⟩, ih.2.2⟩
  refine ⟨key.1, key.2.1, key.2.2, ?_⟩
  obtain ⟨⟨k1, hk1⟩, ⟨k2, hk2⟩, _⟩ := key
  rw [atCenter_eq_true_iff]
  constructor
  · rintro ⟨h1, h2⟩
    obtain ⟨a, ha⟩ := (quarter_center_iff p.pos.1 ⟨k1, hk1⟩).mp h1
    obtain ⟨b, hb⟩ := (quarter_center_iff p.pos.2 ⟨k2, hk2⟩).mp h2
    exact ⟨a, b, by rw [Prod.ext_iff]; exact ⟨ha, hb⟩⟩
  · rintro ⟨a, b, hab⟩
    rw [hab]
    constructor
    · show 10 * |48 * a - 48 * pyRound48 (48 * a)| < 48
      rw [pyRound48_exact]; simp
    · show 10 * |48 * b - 48 * pyRound48 (48 * b)| < 48
      rw [pyRound48_exact]; simp

/-- Witness for C9: the initial player at tile `(1,1)` and its state after one
update. -/
theorem player_quarter_tile_alignment_witness :
    quarterMul (playerUpdate buildMaze (playerInit (1, 1))).pos.1 ∧
    (playerUpdate buildMaze (playerInit (1, 1))).speed = 12 ∧
    (atCenter (playerInit (1, 1)).pos = true ↔
      ∃ a b : ℤ, (playerInit (1, 1)).pos = (48 * a, 48 * b)) := by
  have h1 := player_quarter_tile_alignment _ (PReach.upd _ buildMaze (PReach.base (1, 1)))
  have h2 := player_quarter_tile_alignment _ (PReach.base (1, 1))
  exact ⟨h1.1, h1.2.2.1, h2.2.2.2⟩

theorem ccAux_zero (pp : ℤ × ℤ) (i : ℕ) (s : Game) : ccAux pp 0 i s = s := rfl

theorem ccAux_succ (pp : ℤ × ℤ) (n i : ℕ) (s : Game) :
    ccAux pp (n + 1) i s = ccAux pp n (i + 1) (collideGhost pp s i) := rfl

theorem ccAux_split (pp : ℤ × ℤ) :
    ∀ (a b i : ℕ) (s : Game),
      ccAux pp (a + b) i s = ccAux pp b (i + a) (ccAux pp a i s) := by
  intro a
  induction a with
  | zero => intro b i s; simp [ccAux_zero]
  | succ n ih =>
    intro b i s
    rw [show n + 1 + b = (n + b) + 1 by omega, ccAux_succ, ih b (i + 1) (collideGhost pp s i),
        show i + 1 + n = i + (n + 1) by omega, ← ccAux_succ]

theorem collideGhost_skip (pp : ℤ × ℤ) (s : Game) (i : ℕ)
    (h : ∀ g, s.ghosts[i]? = some g → collideB pp (gridToPx g.pos) = false) :
    collideGhost pp s i = s := by
  cases hg : s.ghosts[i]? with
  | none => simp [collideGhost, hg]
  | some g => simp [collideGhost, hg, h g hg]

theorem collideGhost_vuln (pp : ℤ × ℤ) (s : Game) (i : ℕ) (g : Ghost)
    (hg : s.ghosts[i]? = some g) (hv : g.state = GhostState.vulnerable)
    (hc : collideB pp (gridToPx g.pos) = true) :
    collideGhost pp s i =
      { s with ghosts := s.ghosts.set i { g with state := GhostState.eaten },
               player := { s.player with score := s.player.score + 200 } } := by
  simp [collideGhost, hg, hc, hv]

theorem collideGhost_threat_reset (pp : ℤ × ℤ) (s : Game) (i : ℕ) (g : Ghost)
    (hg : s.ghosts[i]? = some g) (hn : g.state = GhostState.normal)
    (hc : collideB pp (gridToPx g.pos) = true) (hl : 2 ≤ s.player.lives) :
    collideGhost pp s i =
      { s with player := { s.player with
                             lives := s.player.lives - 1,
                             pos := (48 * s.maze.playerStart.1, 48 * s.maze.playerStart.2) },
               ghosts := (resetAll s.rng s.ghosts).1,
               rng := (resetAll s.rng s.ghosts).2, powerTimer := 0 } := by
  have h1 : ¬(g.state = GhostState.vulnerable) := by rw [hn]; intro hh; cases hh
  have h2 : ¬(g.state = GhostState.eaten) := by rw [hn]; intro hh; cases hh
  have h3 : ¬(s.player.lives - 1 ≤ 0) := by omega
  have h4 : ¬(s.player.lives ≤ 1) := by omega
  simp [collideGhost, hg, hc, h1, h2, h3, h4]

theorem collideGhost_threat_dead (pp : ℤ × ℤ) (s : Game) (i : ℕ) (g : Ghost)
    (hg : s.ghosts[i]? = some g) (hn : g.state = GhostState.normal)
    (hc : collideB pp (gridToPx g.pos) = true) (hl : s.player.lives ≤ 1) :
    collideGhost pp s i =
      { s with player := { s.player with lives := s.player.lives - 1 },
               running := false } := by
  have h1 : ¬(g.state = GhostState.vulnerable) := by rw [hn]; intro hh; cases hh
  have h2 : ¬(g.state = GhostState.eaten) := by rw [hn]; intro hh; cases hh
  have h3 : s.player.lives - 1 ≤ 0 := by omega
  simp [collideGhost, hg, hc, h1, h2, h3, hl]

theorem ccAux_noop (pp : ℤ × ℤ) :
    ∀ (fuel i : ℕ) (s : Game),
      (∀ j g, i ≤ j → j < i + fuel → s.ghosts[j]? = some g →
        collideB pp (gridToPx g.pos) = false) →
      ccAux pp fuel i s = s := by
  intro fuel
  induction fuel with
  | zero => intro i s _; rfl
  | succ n ih =>
    intro i s h
    rw [ccAux_succ, collideGhost_skip pp s i (fun g hg => h i g (Nat.le_refl i) (by omega) hg)]
    exact ih (i + 1) s (fun j g h1 h2 hg => h j g (by omega) (by omega) hg)

theorem all_dirs_getD_mem (n : ℕ) : ALL_DIRS.getD (n % ALL_DIRS.length) STOP ∈ ALL_DIRS := by
  have h : n % 4 = 0 ∨ n % 4 = 1 ∨ n % 4 = 2 ∨ n % 4 = 3 := by omega
  have hl : ALL_DIRS.length = 4 := rfl
  rw [hl]
  rcases h with h | h | h | h <;> rw [h] <;> decide

theorem resetAll_get_mem :
    ∀ (gs : List Ghost) (r : Rng) (j : ℕ) (g : Ghost),
      gs[j]? = some g →
      ∃ d ∈ ALL_DIRS,
        (resetAll r gs).1[j]? =
          some { g with pos := (48 * g.start.1, 48 * g.start.2), dir := d,
                        state := GhostState.normal } := by
  intro gs
  induction gs with
  | nil => intro r j g hg; cases hg
  | cons g0 gs ih =>
    intro r j g hg
    have hsh : (resetAll r (g0 :: gs)).1 =
        (resetGhost r g0).1 :: (resetAll (resetGhost r g0).2 gs).1 := rfl
    cases j with
    | zero =>
      have hz : g0 = g := by
        rw [List.getElem?_cons_zero] at hg
        injection hg
      subst hz
      refine ⟨ALL_DIRS.getD (r.seq r.idx % ALL_DIRS.length) STOP,
              all_dirs_getD_mem (r.seq r.idx), ?_⟩
      rw [hsh, List.getElem?_cons_zero]
      rfl
    | succ k =>
      rw [List.getElem?_cons_succ] at hg
      rw [hsh, List.getElem?_cons_succ]
      exact ih (resetGhost r g0).2 k g hg

theorem resetAll_get_none :
    ∀ (gs : List Ghost) (r : Rng) (j : ℕ),
      gs[j]? = none → (resetAll r gs).1[j]? = none := by
  intro gs
  induction gs with
  | nil => intro r j _; rfl
  | cons g0 gs ih =>
    intro r j hg
    have hsh : (resetAll r (g0 :: gs)).1 =
        (resetGhost r g0).1 :: (resetAll (resetGhost r g0).2 gs).1 := rfl
    cases j with
    | zero => rw [List.getElem?_cons_zero] at hg; cases hg
    | succ k =>
      rw [List.getElem?_cons_succ] at hg
      rw [hsh, List.getElem?_cons_succ]
      exact ih (resetGhost r g0).2 k hg

theorem checkCollisions_no_collision (s : Game)
    (h : ∀ (j : ℕ) (g : Ghost), s.ghosts[j]? = some g →
      collideB (gridToPx s.player.pos) (gridToPx g.pos) = false) :
    checkCollisions s = s := by
  unfold checkCollisions
  exact ccAux_noop _ s.ghosts.length 0 s (fun (j : ℕ) (g : Ghost) _ _ hg => h j g hg)

theorem checkCollisions_vuln_spec (s : Game) (i : ℕ) (g : Ghost)
    (hg : s.ghosts[i]? = some g) (hv : g.state = GhostState.vulnerable)
    (hc : collideB (gridToPx s.player.pos) (gridToPx g.pos) = true)
    (hothers : ∀ (j : ℕ) (gj : Ghost), j ≠ i → s.ghosts[j]? = some gj →
      collideB (gridToPx s.player.pos) (gridToPx gj.pos) = false) :
    checkCollisions s =
      { s with ghosts := s.ghosts.set i { g with state := GhostState.eaten },
               player := { s.player with score := s.player.score + 200 } } := by
  have hi : i < s.ghosts.length := by
    by_contra hcon
    rw [List.getElem?_eq_none (by omega)] at hg
    cases hg
  have hpre : ccAux (gridToPx s.player.pos) i 0 s = s :=
    ccAux_noop _ i 0 s (fun (j : ℕ) (gj : Ghost) _ h2 hgj => hothers j gj (by omega) hgj)
  have hlen : s.ghosts.length = i + ((s.ghosts.length - i - 1) + 1) := by omega
  unfold checkCollisions
  rw [hlen, ccAux_split, Nat.zero_add, hpre, ccAux_succ,
      collideGhost_vuln _ s i g hg hv hc]
  apply ccAux_noop
  intro j g' h1 _ hg'
  dsimp only at hg'
  rw [List.getElem?_set_ne (show i ≠ j by omega)] at hg'
  exact hothers j g' (by omega) hg'

theorem checkCollisions_threat_reset_spec (s : Game) (i : ℕ) (g : Ghost)
    (hg : s.ghosts[i]? = some g) (hn : g.state = GhostState.normal)
    (hc : collideB (gridToPx s.player.pos) (gridToPx g.pos) = true)
    (hl : 2 ≤ s.player.lives)
    (hpre : ∀ (j : ℕ) (gj : Ghost), j < i → s.ghosts[j]? = some gj →
      collideB (gridToPx s.player.pos) (gridToPx gj.pos) = false)
    (hpost : ∀ (j : ℕ) (gj : Ghost), i < j → s.ghosts[j]? = some gj →
      collideB (gridToPx s.player.pos)
        (gridToPx (48 * gj.start.1, 48 * gj.start.2)) = false) :
    checkCollisions s =
      { s with player := { s.player with
                             lives := s.player.lives - 1,
                             pos := (48 * s.maze.playerStart.1, 48 * s.maze.playerStart.2) },
               ghosts := (resetAll s.rng s.ghosts).1,
               rng := (resetAll s.rng s.ghosts).2, powerTimer := 0 } := by
  have hi : i < s.ghosts.length := by
    by_contra hcon
    rw [List.getElem?_eq_none (by omega)] at hg
    cases hg
  have hprefix : ccAux (gridToPx s.player.pos) i 0 s = s :=
    ccAux_noop _ i 0 s (fun (j : ℕ) (gj : Ghost) _ h2 hgj => hpre j gj (by omega) hgj)
  have hlen : s.ghosts.length = i + ((s.ghosts.length - i - 1) + 1) := by omega
  unfold checkCollisions
  rw [hlen, ccAux_split, Nat.zero_add, hprefix, ccAux_succ,
      collideGhost_threat_reset _ s i g hg hn hc hl]
  apply ccAux_noop
  intro j g' h1 _ hg'
  dsimp only at hg'
  cases horig : s.ghosts[j]? with
  | none => rw [resetAll_get_none s.ghosts s.rng j horig] at hg'; cases hg'
  | some gj =>
    obtain ⟨d, _, hget⟩ := resetAll_get_mem s.ghosts s.rng j gj horig
    rw [hget] at hg'
    have hgj : g' = { gj with pos := (48 * gj.start.1, 48 * gj.start.2), dir := d,
                              state := GhostState.normal } := by
      injection hg' with hh
      exact hh.symm
    rw [hgj]
    exact hpost j gj (by omega) horig

theorem checkCollisions_threat_dead_spec (s : Game) (i : ℕ) (g : Ghost)
    (hg : s.ghosts[i]? = some g) (hn : g.state = GhostState.normal)
    (hc : collideB (gridToPx s.player.pos) (gridToPx g.pos) = true)
    (hl : s.player.lives ≤ 1)
    (hpre : ∀ (j : ℕ) (gj : Ghost), j < i → s.ghosts[j]? = some gj →
      collideB (gridToPx s.player.pos) (gridToPx gj.pos) = false)
    (hpost : ∀ (j : ℕ) (gj : Ghost), i < j → s.ghosts[j]? = some gj →
      collideB (gridToPx s.player.pos) (gridToPx gj.pos) = false) :
    checkCollisions s =
      { s with player := { s.player with lives := s.player.lives - 1 },
               running := false } := by
  have hi : i < s.ghosts.length := by
    by_contra hcon
    rw [List.getElem?_eq_none (by omega)] at hg
    cases hg
  have hprefix : ccAux (gridToPx s.player.pos) i 0 s = s :=
    ccAux_noop _ i 0 s (fun (j : ℕ) (gj : Ghost) _ h2 hgj => hpre j gj (by omega) hgj)
  have hlen : s.ghosts.length = i + ((s.ghosts.length - i - 1) + 1) := by omega
  unfold checkCollisions
  rw [hlen, ccAux_split, Nat.zero_add, hprefix, ccAux_succ,
      collideGhost_threat_dead _ s i g hg hn hc hl]
  apply ccAux_noop
  intro j g' h1 _ hg'
  dsimp only at hg'
  exact hpost j g' (by omega) hg'

/-- Claim C3: when the adversary at index `i` of the collision pass is in the
Threat (normal) state and within the collision threshold of the player, and no
other adversary collides (processed before the reset at its current position,
after the reset at its home start), then: with at least 2 lives, exactly one
life is lost, the player position becomes the maze player start, every
adversary is reset to its own home start with a freshly drawn direction from
`ALL_DIRS` and state Threat, the power timer is cleared to 0, and `running`
and `win` are untouched; with exactly 1 life, `running` becomes false, `win`
is unchanged (stays false), lives reach 0 and nothing is reset. -/
theorem threat_collision_round_transition (s : Game) (i : ℕ) (g : Ghost)
    (hg : s.ghosts[i]? = some g) (hn : g.state = GhostState.normal)
    (hc : collideB (gridToPx s.player.pos) (gridToPx g.pos) = true)
    (hpre : ∀ (j : ℕ) (gj : Ghost), j < i → s.ghosts[j]? = some gj →
      collideB (gridToPx s.player.pos) (gridToPx gj.pos) = false)
    (hpost : ∀ (j : ℕ) (gj : Ghost), i < j → s.ghosts[j]? = some gj →
      collideB (gridToPx s.player.pos) (gridToPx gj.pos) = false ∧
      collideB (gridToPx s.player.pos)
        (gridToPx (48 * gj.start.1, 48 * gj.start.2)) = false) :
    (2 ≤ s.player.lives →
      (checkCollisions s).player.lives = s.player.lives - 1 ∧
      (checkCollisions s).player.pos =
        (48 * s.maze.playerStart.1, 48 * s.maze.playerStart.2) ∧
      (checkCollisions s).powerTimer = 0 ∧
      (checkCollisions s).running = s.running ∧
      (checkCollisions s).win = s.win ∧
      (∀ (j : ℕ) (gj : Ghost), s.ghosts[j]? = some gj → ∃ d ∈ ALL_DIRS,
        (checkCollisions s).ghosts[j]? =
          some { gj with pos := (48 * gj.start.1, 48 * gj.start.2), dir := d,
                         state := GhostState.normal })) ∧
    (s.player.lives = 1 →
      (checkCollisions s).running = false ∧
      (checkCollisions s).win = s.win ∧
      (checkCollisions s).player.lives = 0 ∧
      (checkCollisions s).player.pos = s.player.pos) := by
  constructor
  · intro hl
    rw [checkCollisions_threat_reset_spec s i g hg hn hc hl hpre
        (fun j gj hj hgj => (hpost j gj hj hgj).2)]
    refine ⟨rfl, rfl, rfl, rfl, rfl, ?_⟩
    intro j gj hgj
    obtain ⟨d, hd, hget⟩ := resetAll_get_mem s.ghosts s.rng j gj hgj
    exact ⟨d, hd, hget⟩
  · intro hl
    rw [checkCollisions_threat_dead_spec s i g hg hn hc (by omega) hpre
        (fun j gj hj hgj => (hpost j gj hj hgj).1)]
    refine ⟨rfl, rfl, ?_, rfl⟩
    show s.player.lives - 1 = 0
    omega

/-- Witness for C3: one Threat adversary overlapping the player with 3 lives
on the built-in maze. -/
theorem threat_collision_round_transition_witness :
    (checkCollisions singleThreatState).player.lives = 2 ∧
    (checkCollisions singleThreatState).player.pos = (48 * 1, 48 * 1) ∧
    (checkCollisions singleThreatState).powerTimer = 0 ∧
    (checkCollisions singleThreatState).running = true ∧
    (∃ d ∈ ALL_DIRS, (checkCollisions singleThreatState).ghosts[0]? =
      some { start := (6, 9), pos := (48 * 6, 48 * 9), dir := d,
             state := GhostState.normal, kind := GhostKind.chaser }) := by
  have h := (threat_collision_round_transition singleThreatState 0
    { start := (6, 9), pos := (252, 240), dir := STOP,
      state := GhostState.normal, kind := GhostKind.chaser }
    rfl rfl (by decide)
    (fun j gj hj _ => absurd hj (by omega))
    (fun j gj hj hgj => by
      rw [List.getElem?_eq_none
        (by have hlen : singleThreatState.ghosts.length = 1 := rfl; omega)] at hgj
      cases hgj)).1 (by decide)
  obtain ⟨h1, h2, h3, h4, _, h6⟩ := h
  refine ⟨h1, h2, h3, h4, ?_⟩
  obtain ⟨d, hd, hget⟩ := h6 0 _ rfl
  exact ⟨d, hd, hget⟩

/-- Claim C5 (amended): a Vulnerable adversary that collides with the player
is captured (becomes eaten) and the score increases by exactly 200,
independent of the power-timer value (the collision pass never reads the
timer), PROVIDED no other adversary also collides in the same pass; then all
other adversaries and every other player/round field are untouched.  The
amendment is forced by `captured_reverted_by_later_threat_collision`: if a
Threat adversary processed later in the same pass also collides with at least
2 lives left, the life-loss reset returns the just-captured adversary to
Threat within the same tick (the +200 persists). -/
theorem vulnerable_collision_capture_scoring (s : Game) (i : ℕ) (g : Ghost)
    (hg : s.ghosts[i]? = some g) (hv : g.state = GhostState.vulnerable)
    (hc : collideB (gridToPx s.player.pos) (gridToPx g.pos) = true)
    (hothers : ∀ (j : ℕ) (gj : Ghost), j ≠ i → s.ghosts[j]? = some gj →
      collideB (gridToPx s.player.pos) (gridToPx gj.pos) = false) :
    (checkCollisions s).player.score = s.player.score + 200 ∧
    (checkCollisions s).ghosts[i]? = some { g with state := GhostState.eaten } ∧
    (∀ (j : ℕ) (gj : Ghost), j ≠ i → s.ghosts[j]? = some gj →
      (checkCollisions s).ghosts[j]? = some gj) ∧
    (checkCollisions s).player.lives = s.player.lives ∧
    (checkCollisions s).player.pos = s.player.pos ∧
    (checkCollisions s).powerTimer = s.powerTimer ∧
    (checkCollisions s).running = s.running ∧
    (checkCollisions s).win = s.win := by
  rw [checkCollisions_vuln_spec s i g hg hv hc hothers]
  refine ⟨rfl, ?_, ?_, rfl, rfl, rfl, rfl, rfl⟩
  · show (s.ghosts.set i _)[i]? = _
    rw [List.getElem?_set_self', hg]
    rfl
  · intro j gj hne hgj
    show (s.ghosts.set i _)[j]? = some gj
    rw [List.getElem?_set_ne (Ne.symm hne)]
    exact hgj

/-- Witness for C5: a single Vulnerable adversary overlapping the player. -/
theorem vulnerable_collision_capture_scoring_witness :
    (checkCollisions singleVulnState).player.score =
      singleVulnState.player.score + 200 ∧
    (checkCollisions singleVulnState).ghosts[0]? =
      some { start := (6, 9), pos := (252, 240), dir := STOP,
             state := GhostState.eaten, kind := GhostKind.chaser } ∧
    (checkCollisions singleVulnState).player.lives = singleVulnState.player.lives := by
  have h := vulnerable_collision_capture_scoring singleVulnState 0
    { start := (6, 9), pos := (252, 240), dir := STOP,
      state := GhostState.vulnerable, kind := GhostKind.chaser }
    rfl rfl (by decide)
    (fun j gj hj hgj => by
      rw [List.getElem?_eq_none
        (by have hlen : singleVulnState.ghosts.length = 1 := rfl; omega)] at hgj
      cases hgj)
  exact ⟨h.1, h.2.1, h.2.2.2.1⟩

/-- Claim C7 (amended): a collision with an adversary is registered exactly
when the Euclidean distance between the pixel-mapped centers of the player and
that adversary is below `0.6 * TILE_SIZE`, where the player position used for
EVERY adversary is the one read once at the start of the collision pass —
i.e. the player's post-movement position of this tick, not the pre-tick
position (see `collision_registered_against_postmove_position`), and not
re-read after a life-loss reset.  Part one: for a Vulnerable adversary (the
only other-collision-free case with an observable effect), the capture effect
occurs iff the threshold test against the pass-entry player position passes.
Part two: after a life-loss reset triggered by the first adversary, the
second adversary is evaluated against the pass-entry player position at its
reset home position; the hypotheses never constrain the distance to the
reset player position. -/
theorem collision_threshold_and_entry_position :
    (∀ (s : Game) (i : ℕ) (g : Ghost),
      s.ghosts[i]? = some g → g.state = GhostState.vulnerable →
      (∀ (j : ℕ) (gj : Ghost), j ≠ i → s.ghosts[j]? = some gj →
        collideB (gridToPx s.player.pos) (gridToPx gj.pos) = false) →
      (collideB (gridToPx s.player.pos) (gridToPx g.pos) = true →
        (checkCollisions s).ghosts[i]? = some { g with state := GhostState.eaten } ∧
        (checkCollisions s).player.score = s.player.score + 200) ∧
      (collideB (gridToPx s.player.pos) (gridToPx g.pos) = false →
        checkCollisions s = s)) ∧
    (∀ (s : Game) (g0 g1 : Ghost),
      s.ghosts = [g0, g1] → g0.state = GhostState.normal →
      collideB (gridToPx s.player.pos) (gridToPx g0.pos) = true →
      2 ≤ s.player.lives →
      collideB (gridToPx s.player.pos)
        (gridToPx (48 * g1.start.1, 48 * g1.start.2)) = false →
      (checkCollisions s).player.lives = s.player.lives - 1 ∧
      (checkCollisions s).player.pos =
        (48 * s.maze.playerStart.1, 48 * s.maze.playerStart.2) ∧
      (∃ d ∈ ALL_DIRS, (checkCollisions s).ghosts[1]? =
        some { g1 with pos := (48 * g1.start.1, 48 * g1.start.2), dir := d,
                       state := GhostState.normal })) := by
  constructor
  · intro s i g hg hv hothers
    constructor
    · intro hc
      rw [checkCollisions_vuln_spec s i g hg hv hc hothers]
      refine ⟨?_, rfl⟩
      show (s.ghosts.set i _)[i]? = _
      rw [List.getElem?_set_self', hg]
      rfl
    · intro hc
      apply checkCollisions_no_collision
      intro j gj hgj
      by_cases hj : j = i
      · subst hj
        have hq : gj = g := by
          rw [hg] at hgj
          injection hgj with hh
          exact hh.symm
        rw [hq]
        exact hc
      · exact hothers j gj hj hgj
  · intro s g0 g1 hgs hn hc hl hfar
    have hg0 : s.ghosts[0]? = some g0 := by rw [hgs]; rfl
    have hg1 : s.ghosts[1]? = some g1 := by rw [hgs]; rfl
    have hpost : ∀ (j : ℕ) (gj : Ghost), 0 < j → s.ghosts[j]? = some gj →
        collideB (gridToPx s.player.pos)
          (gridToPx (48 * gj.start.1, 48 * gj.start.2)) = false := by
      intro j gj hj hgj
      rw [hgs] at hgj
      cases j with
      | zero => omega
      | succ k =>
        cases k with
        | zero =>
          have hq : g1 = gj := by
            rw [List.getElem?_cons_succ, List.getElem?_cons_zero] at hgj
            injection hgj
          rw [← hq]
          exact hfar
        | succ k2 =>
          rw [List.getElem?_cons_succ, List.getElem?_cons_succ, List.getElem?_nil] at hgj
          cases hgj
    have h := checkCollisions_threat_reset_spec s 0 g0 hg0 hn hc hl
      (fun j gj hj _ => absurd hj (by omega)) hpost
    rw [h]
    refine ⟨rfl, rfl, ?_⟩
    obtain ⟨d, hd, hget⟩ := resetAll_get_mem s.ghosts s.rng 1 g1 hg1
    exact ⟨d, hd, hget⟩

/-- Witness for C7: part one at a single overlapping Vulnerable adversary,
part two at a two-adversary state whose first adversary triggers the reset. -/
theorem collision_threshold_and_entry_position_witness :
    (checkCollisions singleVulnState).ghosts[0]? =
      some { start := (6, 9), pos := (252, 240), dir := STOP,
             state := GhostState.eaten, kind := GhostKind.chaser } ∧
    (checkCollisions twoGhostState).player.lives = twoGhostState.player.lives - 1 ∧
    (checkCollisions twoGhostState).player.pos = (48 * 1, 48 * 1) := by
  have hA := (collision_threshold_and_entry_position.1 singleVulnState 0
    { start := (6, 9), pos := (252, 240), dir := STOP,
      state := GhostState.vulnerable, kind := GhostKind.chaser }
    rfl rfl
    (fun j gj hj hgj => by
      rw [List.getElem?_eq_none
        (by have hlen : singleVulnState.ghosts.length = 1 := rfl; omega)] at hgj
      cases hgj)).1 (by decide)
  have hB := collision_threshold_and_entry_position.2 twoGhostState
    { start := (6, 9), pos := (252, 240), dir := STOP,
      state := GhostState.normal, kind := GhostKind.chaser }
    { start := (19, 9), pos := (48 * 20, 48 * 13), dir := STOP,
      state := GhostState.normal, kind := GhostKind.randomGhost }
    rfl rfl (by decide) (by decide) (by decide)
  refine ⟨hA.1, hB.1, ?_⟩
  rw [hB.2.1]
  decide
